import Mathlib

/-
  Shallow embedding of src/src/final_project_backend/src/lib.rs:
  a proposal-and-voting registry for the Internet Computer.
  Caller identities (candid::Principal) are modelled as Nat,
  the stable BTree map as an association list from Nat (u64 key)
  to Proposal, and u32 counters as Nat with wrap-around modulo 2^32.
  Each update operation takes the caller as an explicit argument
  (the source reads it from ic_cdk::caller()) and returns the call
  result, the updated store, and a log of the store accesses made.
-/

namespace ICPVote

abbrev Principal := Nat

inductive Choice where
  | Approve
  | Reject
  | Pass
deriving DecidableEq, Repr

inductive VoteError where
  | AlreadyVoted
  | ProposalIsNotActive
  | NoSuchProposal
  | AccessRejected
  | UpdateError
deriving DecidableEq, Repr

structure Proposal where
  description : String
  approve : Nat
  reject : Nat
  pass : Nat
  is_active : Bool
  voted : List Principal
  owner : Principal
deriving DecidableEq, Repr

structure CreateProposal where
  description : String
  is_active : Bool
deriving DecidableEq, Repr

/-- Wrap-around modulus for the u32 counters. -/
def u32Mod : Nat := 4294967296

/-- Rust Result of the update calls: Ok(()) or Err(VoteError). -/
inductive VoteResult where
  | ok
  | err (e : VoteError)
deriving DecidableEq, Repr

/-- The stable map, as an association list keyed by the u64 proposal key. -/
abbrev Store := List (Nat × Proposal)

/-- StableBTreeMap.get: the stored record at the key, if any. -/
def storeGet (s : Store) (key : Nat) : Option Proposal :=
  match s with
  | [] => none
  | (k, v) :: rest => if k = key then some v else storeGet rest key

/-- StableBTreeMap.insert: stores the value at the key and returns the
previous value at that key together with the updated map. -/
def storeInsert (s : Store) (key : Nat) (value : Proposal) : Option Proposal × Store :=
  match s with
  | [] => (none, [(key, value)])
  | (k, v) :: rest =>
    if k = key then (some v, (key, value) :: rest)
    else
      let r := storeInsert rest key value
      (r.1, (k, v) :: r.2)

/-- One store access, for accounting reads and writes per call. -/
inductive StoreOp where
  | read (key : Nat)
  | write (key : Nat) (value : Proposal)
deriving DecidableEq, Repr

/-- Result of one update call: the returned value, the store afterwards,
and the store accesses the call performed, in order. -/
structure OpResult (α : Type) where
  result : α
  store : Store
  log : List StoreOp

/-- get_proposal: pure lookup. -/
def get_proposal (s : Store) (key : Nat) : Option Proposal :=
  storeGet s key

/-- get_proposal_count: number of stored records. -/
def get_proposal_count (s : Store) : Nat :=
  s.length

/-- Create_proposal: builds a fresh record (counters 0, voted empty,
owner the caller, description and is_active from the request) and inserts
it, returning the previous value at the key. -/
def Create_proposal (caller : Principal) (key : Nat) (proposal : CreateProposal)
    (s : Store) : OpResult (Option Proposal) :=
  let value : Proposal :=
    { description := proposal.description
      approve := 0
      reject := 0
      pass := 0
      is_active := proposal.is_active
      voted := []
      owner := caller }
  let r := storeInsert s key value
  ⟨r.1, r.2, [StoreOp.write key value]⟩

/-- edit_proposal: replaces description and is_active from the input,
carrying counters, voted and owner over; owner-gated. -/
def edit_proposal (caller : Principal) (key : Nat) (proposal : CreateProposal)
    (s : Store) : OpResult VoteResult :=
  match storeGet s key with
  | none => ⟨.err .NoSuchProposal, s, [.read key]⟩
  | some old_proposal =>
    if old_proposal.owner ≠ caller then
      ⟨.err .AccessRejected, s, [.read key]⟩
    else
      let value : Proposal :=
        { description := proposal.description
          approve := old_proposal.approve
          reject := old_proposal.reject
          pass := old_proposal.pass
          is_active := proposal.is_active
          voted := old_proposal.voted
          owner := old_proposal.owner }
      let r := storeInsert s key value
      match r.1 with
      | some _ => ⟨.ok, r.2, [.read key, .write key value]⟩
      | none => ⟨.err .UpdateError, r.2, [.read key, .write key value]⟩

/-- end_proposal: sets is_active to false; owner-gated. -/
def end_proposal (caller : Principal) (key : Nat) (s : Store) : OpResult VoteResult :=
  match storeGet s key with
  | none => ⟨.err .NoSuchProposal, s, [.read key]⟩
  | some old_proposal =>
    if old_proposal.owner ≠ caller then
      ⟨.err .AccessRejected, s, [.read key]⟩
    else
      let value : Proposal := { old_proposal with is_active := false }
      let r := storeInsert s key value
      match r.1 with
      | some _ => ⟨.ok, r.2, [.read key, .write key value]⟩
      | none => ⟨.err .UpdateError, r.2, [.read key, .write key value]⟩

/-- The tally update of vote: the source increments approve and reject by
one but decrements pass by one, with u32 wrap-around (the wrapping
decrement of a u32 counter is u32Mod - 1 at zero and pass - 1 otherwise). -/
def applyChoice (choice : Choice) (proposal : Proposal) : Proposal :=
  match choice with
  | .Approve => { proposal with approve := (proposal.approve + 1) % u32Mod }
  | .Pass => { proposal with
      pass := if proposal.pass = 0 then u32Mod - 1 else proposal.pass - 1 }
  | .Reject => { proposal with reject := (proposal.reject + 1) % u32Mod }

/-- vote: duplicate-vote check, then activity check, then the tally update,
then appends the caller to voted and writes back. -/
def vote (caller : Principal) (key : Nat) (choice : Choice) (s : Store) :
    OpResult VoteResult :=
  match storeGet s key with
  | none => ⟨.err .NoSuchProposal, s, [.read key]⟩
  | some proposal =>
    if proposal.voted.contains caller then
      ⟨.err .AlreadyVoted, s, [.read key]⟩
    else if proposal.is_active ≠ true then
      ⟨.err .ProposalIsNotActive, s, [.read key]⟩
    else
      let tallied : Proposal := applyChoice choice proposal
      let value : Proposal := { tallied with voted := tallied.voted ++ [caller] }
      let r := storeInsert s key value
      match r.1 with
      | some _ => ⟨.ok, r.2, [.read key, .write key value]⟩
      | none => ⟨.err .UpdateError, r.2, [.read key, .write key value]⟩

/-- Stores reachable from the empty store by the four update operations. -/
inductive Reachable : Store → Prop where
  | init : Reachable []
  | stepCreate {s : Store} (c : Principal) (k : Nat) (r : CreateProposal) :
      Reachable s → Reachable (Create_proposal c k r s).store
  | stepEdit {s : Store} (c : Principal) (k : Nat) (r : CreateProposal) :
      Reachable s → Reachable (edit_proposal c k r s).store
  | stepEnd {s : Store} (c : Principal) (k : Nat) :
      Reachable s → Reachable (end_proposal c k s).store
  | stepVote {s : Store} (c : Principal) (k : Nat) (ch : Choice) :
      Reachable s → Reachable (vote c k ch s).store

/-- Classifies the four validation errors, as opposed to success and
UpdateError. -/
def isValidationErr : VoteResult → Bool
  | .err .NoSuchProposal => true
  | .err .AccessRejected => true
  | .err .AlreadyVoted => true
  | .err .ProposalIsNotActive => true
  | _ => false

/-- True exactly on Err(UpdateError). -/
def isUpdateErr : VoteResult → Bool
  | .err .UpdateError => true
  | _ => false

/-- Number of reads in an access log. -/
def countReads : List StoreOp → Nat
  | [] => 0
  | .read _ :: rest => countReads rest + 1
  | .write _ _ :: rest => countReads rest

/-- Number of writes in an access log. -/
def countWrites : List StoreOp → Nat
  | [] => 0
  | .read _ :: rest => countWrites rest
  | .write _ _ :: rest => countWrites rest + 1

theorem applyChoice_voted (ch : Choice) (p : Proposal) :
    (applyChoice ch p).voted = p.voted := by
  cases ch
  · exact rfl
  · exact rfl
  · exact rfl

theorem applyChoice_is_active (ch : Choice) (p : Proposal) :
    (applyChoice ch p).is_active = p.is_active := by
  cases ch
  · exact rfl
  · exact rfl
  · exact rfl

theorem storeInsert_fst (s : Store) (key : Nat) (value : Proposal) :
    (storeInsert s key value).1 = storeGet s key := by
  induction s with
  | nil => rfl
  | cons hd tl ih =>
    obtain ⟨k, v⟩ := hd
    simp only [storeInsert, storeGet]
    split <;> simp [ih]

theorem storeGet_insert (s : Store) (key k2 : Nat) (value : Proposal) :
    storeGet (storeInsert s key value).2 k2 =
      if key = k2 then some value else storeGet s k2 := by
  induction s with
  | nil => simp [storeInsert, storeGet]
  | cons hd tl ih =>
    obtain ⟨k, v⟩ := hd
    simp only [storeInsert]
    by_cases hk : k = key
    · subst hk
      simp only [if_pos rfl, storeGet]
      by_cases h2 : k = k2 <;> simp [h2]
    · simp only [if_neg hk, storeGet]
      by_cases h2 : k = k2
      · subst h2
        have : ¬ key = k := fun h => hk h.symm
        simp [this]
      · simp [h2, ih]

/-- C1: the claim says vote(k, Pass) increments the pass counter by 1;
evaluating the code on an active proposal with pass = 5 and a fresh caller,
the vote succeeds but the stored pass counter becomes 4, not 6: the source
decrements pass. -/
theorem C1_vote_pass_decrements :
    (vote 5 1 Choice.Pass [(1, ⟨"d", 0, 0, 5, true, [], 9⟩)]).result = VoteResult.ok ∧
    (storeGet (vote 5 1 Choice.Pass [(1, ⟨"d", 0, 0, 5, true, [], 9⟩)]).store 1).map
      Proposal.pass = some 4 := by
  decide

/-- C4: from the empty store, creating an active proposal (pass = 0) and then
voting Pass with a fresh caller stores pass = 2^32 - 1: the unsigned counter
underflows at zero under wrap-around u32 semantics. -/
theorem C4_pass_underflows_at_zero :
    (storeGet (Create_proposal 7 1 ⟨"d", true⟩ []).store 1).map Proposal.pass = some 0 ∧
    (vote 8 1 Choice.Pass (Create_proposal 7 1 ⟨"d", true⟩ []).store).result = VoteResult.ok ∧
    (storeGet (vote 8 1 Choice.Pass (Create_proposal 7 1 ⟨"d", true⟩ []).store).store 1).map
      Proposal.pass = some 4294967295 := by
  decide

/-- C2 counterexample: from the empty store, the owner creates an inactive
proposal at key 1 and then edits it with is_active = true; the stored
record's is_active goes from false to true, so an operation other than
end_proposal does change a stored is_active from false to true. -/
theorem C2_counterexample_edit_reactivates :
    (storeGet (Create_proposal 7 1 ⟨"d", false⟩ []).store 1).map Proposal.is_active =
      some false ∧
    (edit_proposal 7 1 ⟨"d", true⟩ (Create_proposal 7 1 ⟨"d", false⟩ []).store).result =
      VoteResult.ok ∧
    (storeGet (edit_proposal 7 1 ⟨"d", true⟩
        (Create_proposal 7 1 ⟨"d", false⟩ []).store).store 1).map Proposal.is_active =
      some true := by
  decide

/-- C9 counterexample: from the empty store, create an active proposal at
key 1 (owner 7), let caller 5 vote Approve (voted becomes the one-element
list 5), then overwrite key 1 with Create_proposal: the stored record's
voted list becomes empty, losing caller 5, so the voted set of the record
at key 1 did not grow and did not stay unchanged. -/
theorem C9_counterexample_create_resets_voted :
    (storeGet (vote 5 1 Choice.Approve (Create_proposal 7 1 ⟨"d", true⟩ []).store).store 1).map
      Proposal.voted = some [5] ∧
    (storeGet (Create_proposal 9 1 ⟨"x", true⟩
        (vote 5 1 Choice.Approve (Create_proposal 7 1 ⟨"d", true⟩ []).store).store).store 1).map
      Proposal.voted = some [] ∧
    ([5] : List Principal).contains 5 = true ∧
    ([] : List Principal).contains 5 = false := by
  decide

/-- C3: when the stored proposal's voted list contains the caller and the
proposal is inactive, vote returns AlreadyVoted, not ProposalIsNotActive:
the duplicate-vote check precedes the activity check. -/
theorem C3_already_voted_precedes_inactive (c : Principal) (k : Nat) (ch : Choice)
    (s : Store) (pr : Proposal) (hget : storeGet s k = some pr)
    (hvoted : pr.voted.contains c = true) (hinactive : pr.is_active = false) :
    (vote c k ch s).result = VoteResult.err VoteError.AlreadyVoted := by
  unfold vote
  rw [hget]
  have hm : c ∈ pr.voted := by simpa using hvoted
  simp [hm]

theorem C3_witness :
    storeGet [(1, (⟨"d", 0, 0, 0, false, [5], 9⟩ : Proposal))] 1 =
      some ⟨"d", 0, 0, 0, false, [5], 9⟩ ∧
    (Proposal.voted ⟨"d", 0, 0, 0, false, [5], 9⟩).contains 5 = true ∧
    Proposal.is_active ⟨"d", 0, 0, 0, false, [5], 9⟩ = false ∧
    (vote 5 1 Choice.Approve [(1, ⟨"d", 0, 0, 0, false, [5], 9⟩)]).result =
      VoteResult.err VoteError.AlreadyVoted :=
  ⟨by decide, by decide, by decide,
    C3_already_voted_precedes_inactive 5 1 Choice.Approve
      [(1, ⟨"d", 0, 0, 0, false, [5], 9⟩)] ⟨"d", 0, 0, 0, false, [5], 9⟩
      (by decide) (by decide) (by decide)⟩

/-- C5: Create_proposal stores at the key a record with zero counters, an
empty voted list, the caller as owner, and the description and is_active of
the request, overwriting any previous record, and returns the previous
value at the key (none on a fresh insert); every other key is untouched. -/
theorem C5_create_semantics (c : Principal) (k : Nat) (r : CreateProposal) (s : Store) :
    (Create_proposal c k r s).result = storeGet s k ∧
    storeGet (Create_proposal c k r s).store k =
      some ⟨r.description, 0, 0, 0, r.is_active, [], c⟩ := by
  constructor
  · simp [Create_proposal, storeInsert_fst]
  · simp [Create_proposal, storeGet_insert]

/-- C6: when the stored proposal's owner differs from the caller, both
edit_proposal and end_proposal return AccessRejected and leave the store
unchanged. -/
theorem C6_non_owner_rejected (c : Principal) (k : Nat) (r : CreateProposal)
    (s : Store) (pr : Proposal) (hget : storeGet s k = some pr)
    (hown : pr.owner ≠ c) :
    (edit_proposal c k r s).result = VoteResult.err VoteError.AccessRejected ∧
    (edit_proposal c k r s).store = s ∧
    (end_proposal c k s).result = VoteResult.err VoteError.AccessRejected ∧
    (end_proposal c k s).store = s := by
  unfold edit_proposal end_proposal
  rw [hget]
  simp [hown]

theorem C6_witness :
    storeGet [(1, (⟨"d", 2, 3, 4, true, [5], 9⟩ : Proposal))] 1 =
      some ⟨"d", 2, 3, 4, true, [5], 9⟩ ∧
    Proposal.owner ⟨"d", 2, 3, 4, true, [5], 9⟩ ≠ 8 ∧
    ((edit_proposal 8 1 ⟨"e", false⟩ [(1, ⟨"d", 2, 3, 4, true, [5], 9⟩)]).result =
        VoteResult.err VoteError.AccessRejected ∧
      (edit_proposal 8 1 ⟨"e", false⟩ [(1, ⟨"d", 2, 3, 4, true, [5], 9⟩)]).store =
        [(1, ⟨"d", 2, 3, 4, true, [5], 9⟩)] ∧
      (end_proposal 8 1 [(1, ⟨"d", 2, 3, 4, true, [5], 9⟩)]).result =
        VoteResult.err VoteError.AccessRejected ∧
      (end_proposal 8 1 [(1, ⟨"d", 2, 3, 4, true, [5], 9⟩)]).store =
        [(1, ⟨"d", 2, 3, 4, true, [5], 9⟩)]) :=
  ⟨by decide, by decide,
    C6_non_owner_rejected 8 1 ⟨"e", false⟩ [(1, ⟨"d", 2, 3, 4, true, [5], 9⟩)]
      ⟨"d", 2, 3, 4, true, [5], 9⟩ (by decide) (by decide)⟩

/-- C8: a successful edit_proposal stores a record whose description and
is_active come from the input while approve, reject, pass, voted and owner
are those of the previously stored record. -/
theorem C8_edit_frame (c : Principal) (k : Nat) (r : CreateProposal)
    (s : Store) (pr : Proposal) (hget : storeGet s k = some pr)
    (hown : pr.owner = c) :
    (edit_proposal c k r s).result = VoteResult.ok ∧
    storeGet (edit_proposal c k r s).store k =
      some ⟨r.description, pr.approve, pr.reject, pr.pass, r.is_active, pr.voted,
        pr.owner⟩ := by
  unfold edit_proposal
  rw [hget]
  simp [hown, storeInsert_fst, hget, storeGet_insert]

theorem C8_witness :
    storeGet [(1, (⟨"d", 2, 3, 4, true, [5], 9⟩ : Proposal))] 1 =
      some ⟨"d", 2, 3, 4, true, [5], 9⟩ ∧
    Proposal.owner ⟨"d", 2, 3, 4, true, [5], 9⟩ = 9 ∧
    ((edit_proposal 9 1 ⟨"e", false⟩ [(1, ⟨"d", 2, 3, 4, true, [5], 9⟩)]).result =
        VoteResult.ok ∧
      storeGet (edit_proposal 9 1 ⟨"e", false⟩
          [(1, ⟨"d", 2, 3, 4, true, [5], 9⟩)]).store 1 =
        some ⟨"e", 2, 3, 4, false, [5], 9⟩) :=
  ⟨by decide, by decide,
    C8_edit_frame 9 1 ⟨"e", false⟩ [(1, ⟨"d", 2, 3, 4, true, [5], 9⟩)]
      ⟨"d", 2, 3, 4, true, [5], 9⟩ (by decide) (by decide)⟩

/-- C10: edit_proposal, end_proposal and vote never return UpdateError:
whenever they reach their final insert, the record just read at the same
key is still there, so the insert returns the previous value. -/
theorem C10_update_error_unreachable (c : Principal) (k : Nat) (r : CreateProposal)
    (ch : Choice) (s : Store) :
    isUpdateErr (edit_proposal c k r s).result = false ∧
    isUpdateErr (end_proposal c k s).result = false ∧
    isUpdateErr (vote c k ch s).result = false := by
  refine ⟨?_, ?_, ?_⟩
  · unfold edit_proposal
    cases hg : storeGet s k with
    | none => rfl
    | some pr =>
      by_cases ho : pr.owner = c
      · simp [ho, storeInsert_fst, hg, isUpdateErr]
      · simp [ho, isUpdateErr]
  · unfold end_proposal
    cases hg : storeGet s k with
    | none => rfl
    | some pr =>
      by_cases ho : pr.owner = c
      · simp [ho, storeInsert_fst, hg, isUpdateErr]
      · simp [ho, isUpdateErr]
  · unfold vote
    cases hg : storeGet s k with
    | none => rfl
    | some pr =>
      by_cases hv : c ∈ pr.voted
      · simp [hv, isUpdateErr]
      · by_cases ha : pr.is_active = true
        · simp [hv, ha, storeInsert_fst, hg, isUpdateErr]
        · simp [hv, ha, isUpdateErr]

/-- C2, amended: end_proposal and vote never change a stored record's
is_active from false to true (end_proposal either leaves the store
unchanged or stores the record at its key with is_active false); only
edit_proposal, and a create_proposal overwrite, which take is_active from
their input, can set an inactive stored record active again. -/
theorem C2_amended_no_reactivation (c : Principal) (k k2 : Nat) (ch : Choice)
    (s : Store) (h : (storeGet s k2).map Proposal.is_active = some false) :
    (storeGet (end_proposal c k s).store k2).map Proposal.is_active = some false ∧
    (storeGet (vote c k ch s).store k2).map Proposal.is_active = some false ∧
    ((end_proposal c k s).store = s ∨
      (storeGet (end_proposal c k s).store k).map Proposal.is_active = some false) := by
  refine ⟨?_, ?_, ?_⟩
  · unfold end_proposal
    cases hg : storeGet s k with
    | none => exact h
    | some pr =>
      by_cases ho : pr.owner = c
      · simp only [ho, ne_eq, not_true_eq_false, if_false, storeInsert_fst, hg]
        simp only [storeGet_insert]
        by_cases hk : k = k2
        · simp [hk]
        · simp [hk, h]
      · simp [ho, h]
  · unfold vote
    cases hg : storeGet s k with
    | none => exact h
    | some pr =>
      by_cases hv : c ∈ pr.voted
      · simp [hv, h]
      · by_cases ha : pr.is_active = true
        · by_cases hk : k = k2
          · subst hk
            rw [hg] at h
            simp [ha] at h
          · simp [hv, ha, storeInsert_fst, hg, storeGet_insert, hk, h]
        · simp [hv, ha, h]
  · unfold end_proposal
    cases hg : storeGet s k with
    | none => exact Or.inl rfl
    | some pr =>
      by_cases ho : pr.owner = c
      · refine Or.inr ?_
        simp [ho, storeInsert_fst, hg, storeGet_insert]
      · exact Or.inl (by simp [ho])

theorem C2_amended_witness :
    (storeGet [(2, (⟨"d", 0, 0, 0, false, [], 9⟩ : Proposal))] 2).map Proposal.is_active =
      some false ∧
    ((storeGet (end_proposal 3 1 [(2, ⟨"d", 0, 0, 0, false, [], 9⟩)]).store 2).map
        Proposal.is_active = some false ∧
      (storeGet (vote 3 1 Choice.Approve [(2, ⟨"d", 0, 0, 0, false, [], 9⟩)]).store 2).map
        Proposal.is_active = some false ∧
      ((end_proposal 3 1 [(2, ⟨"d", 0, 0, 0, false, [], 9⟩)]).store =
          [(2, ⟨"d", 0, 0, 0, false, [], 9⟩)] ∨
        (storeGet (end_proposal 3 1 [(2, ⟨"d", 0, 0, 0, false, [], 9⟩)]).store 1).map
          Proposal.is_active = some false)) :=
  ⟨by decide,
    C2_amended_no_reactivation 3 1 2 Choice.Approve
      [(2, ⟨"d", 0, 0, 0, false, [], 9⟩)] (by decide)⟩

/-- C7: each of edit_proposal, end_proposal and vote performs exactly one
store read and at most one store write, and whenever the call returns one
of the four validation errors (NoSuchProposal, AccessRejected,
AlreadyVoted, ProposalIsNotActive) the store is unchanged and no write was
performed. -/
theorem C7_read_write_discipline (c : Principal) (k : Nat) (r : CreateProposal)
    (ch : Choice) (s : Store) :
    (countReads (edit_proposal c k r s).log = 1 ∧
      countWrites (edit_proposal c k r s).log ≤ 1 ∧
      (isValidationErr (edit_proposal c k r s).result = true →
        (edit_proposal c k r s).store = s ∧
          countWrites (edit_proposal c k r s).log = 0)) ∧
    (countReads (end_proposal c k s).log = 1 ∧
      countWrites (end_proposal c k s).log ≤ 1 ∧
      (isValidationErr (end_proposal c k s).result = true →
        (end_proposal c k s).store = s ∧ countWrites (end_proposal c k s).log = 0)) ∧
    (countReads (vote c k ch s).log = 1 ∧
      countWrites (vote c k ch s).log ≤ 1 ∧
      (isValidationErr (vote c k ch s).result = true →
        (vote c k ch s).store = s ∧ countWrites (vote c k ch s).log = 0)) := by
  refine ⟨?_, ?_, ?_⟩
  · unfold edit_proposal
    cases hg : storeGet s k with
    | none => simp [countReads, countWrites, isValidationErr]
    | some pr =>
      by_cases ho : pr.owner = c
      · simp [ho, storeInsert_fst, hg, countReads, countWrites, isValidationErr]
      · simp [ho, countReads, countWrites, isValidationErr]
  · unfold end_proposal
    cases hg : storeGet s k with
    | none => simp [countReads, countWrites, isValidationErr]
    | some pr =>
      by_cases ho : pr.owner = c
      · simp [ho, storeInsert_fst, hg, countReads, countWrites, isValidationErr]
      · simp [ho, countReads, countWrites, isValidationErr]
  · unfold vote
    cases hg : storeGet s k with
    | none => simp [countReads, countWrites, isValidationErr]
    | some pr =>
      by_cases hv : c ∈ pr.voted
      · simp [hv, countReads, countWrites, isValidationErr]
      · by_cases ha : pr.is_active = true
        · simp [hv, ha, storeInsert_fst, hg, countReads, countWrites, isValidationErr]
        · simp [hv, ha, countReads, countWrites, isValidationErr]

theorem C7_witness :
    isValidationErr (edit_proposal 3 1 ⟨"d", true⟩ []).result = true ∧
    (edit_proposal 3 1 ⟨"d", true⟩ []).store = [] ∧
    countWrites (edit_proposal 3 1 ⟨"d", true⟩ []).log = 0 :=
  ⟨by decide,
    ((C7_read_write_discipline 3 1 ⟨"d", true⟩ Choice.Pass []).1.2.2 (by decide)).1,
    ((C7_read_write_discipline 3 1 ⟨"d", true⟩ Choice.Pass []).1.2.2 (by decide)).2⟩

theorem edit_voted_eq (c : Principal) (k : Nat) (r : CreateProposal) (s : Store)
    (k2 : Nat) :
    (storeGet (edit_proposal c k r s).store k2).map Proposal.voted =
      (storeGet s k2).map Proposal.voted := by
  unfold edit_proposal
  cases hg : storeGet s k with
  | none => rfl
  | some pr =>
    by_cases ho : pr.owner = c
    · simp only [ho, ne_eq, not_true_eq_false, if_false, storeInsert_fst, hg]
      simp only [storeGet_insert]
      by_cases hk : k = k2
      · subst hk
        simp [hg]
      · simp [hk]
    · simp [ho]

theorem end_voted_eq (c : Principal) (k : Nat) (s : Store) (k2 : Nat) :
    (storeGet (end_proposal c k s).store k2).map Proposal.voted =
      (storeGet s k2).map Proposal.voted := by
  unfold end_proposal
  cases hg : storeGet s k with
  | none => rfl
  | some pr =>
    by_cases ho : pr.owner = c
    · simp only [ho, ne_eq, not_true_eq_false, if_false, storeInsert_fst, hg]
      simp only [storeGet_insert]
      by_cases hk : k = k2
      · subst hk
        simp [hg]
      · simp [hk]
    · simp [ho]

theorem vote_store_shape (c : Principal) (k k2 : Nat) (ch : Choice) (s : Store) :
    (vote c k ch s).store = s ∨
    ((storeGet s k).map (fun p => p.voted.contains c) = some false ∧
      (storeGet (vote c k ch s).store k).map Proposal.voted =
        (storeGet s k).map (fun p => p.voted ++ [c]) ∧
      (k2 = k ∨ storeGet (vote c k ch s).store k2 = storeGet s k2)) := by
  unfold vote
  cases hg : storeGet s k with
  | none => exact Or.inl rfl
  | some pr =>
    by_cases hv : c ∈ pr.voted
    · simp [hv]
    · by_cases ha : pr.is_active = true
      · refine Or.inr ⟨?_, ?_, ?_⟩
        · simpa using hv
        · simp [hv, ha, storeInsert_fst, hg, storeGet_insert, applyChoice_voted]
        · by_cases hk : k2 = k
          · exact Or.inl hk
          · refine Or.inr ?_
            have hk2 : ¬ k = k2 := fun hh => hk hh.symm
            simp [hv, ha, storeInsert_fst, hg, storeGet_insert, hk2]
      · exact Or.inl (by simp [hv, ha])

theorem vote_already_voted (c : Principal) (k : Nat) (ch : Choice) (s : Store)
    (pr : Proposal) (hget : storeGet s k = some pr)
    (hv : pr.voted.contains c = true) :
    (vote c k ch s).result = VoteResult.err VoteError.AlreadyVoted ∧
      (vote c k ch s).store = s := by
  have hm : c ∈ pr.voted := by simpa using hv
  unfold vote
  rw [hget]
  simp [hm]

theorem reachable_voted_nodup {s : Store} (h : Reachable s) :
    ∀ k pr, storeGet s k = some pr → pr.voted.Nodup := by
  induction h with
  | init =>
    intro k pr hg
    simp [storeGet] at hg
  | @stepCreate s c k r hs ih =>
    intro k2 pr2 hg2
    simp only [Create_proposal, storeGet_insert] at hg2
    by_cases hk : k = k2
    · rw [if_pos hk] at hg2
      cases hg2
      simp
    · rw [if_neg hk] at hg2
      exact ih k2 pr2 hg2
  | @stepEdit s c k r hs ih =>
    intro k2 pr2 hg2
    have hv := edit_voted_eq c k r s k2
    rw [hg2] at hv
    cases ho : storeGet _ k2 with
    | none => rw [ho] at hv; simp at hv
    | some pr3 =>
      rw [ho] at hv
      simp only [Option.map_some', Option.some.injEq] at hv
      rw [hv]
      exact ih k2 pr3 ho
  | @stepEnd s c k hs ih =>
    intro k2 pr2 hg2
    have hv := end_voted_eq c k s k2
    rw [hg2] at hv
    cases ho : storeGet _ k2 with
    | none => rw [ho] at hv; simp at hv
    | some pr3 =>
      rw [ho] at hv
      simp only [Option.map_some', Option.some.injEq] at hv
      rw [hv]
      exact ih k2 pr3 ho
  | @stepVote s c k ch hs ih =>
    intro k2 pr2 hg2
    rcases vote_store_shape c k k2 ch s with hsame | ⟨hcont, hvk, hother⟩
    · rw [hsame] at hg2
      exact ih k2 pr2 hg2
    · rcases hother with hk | hunch
      · subst hk
        cases ho : storeGet _ k2 with
        | none => rw [ho] at hcont; simp at hcont
        | some pr3 =>
          rw [ho] at hcont hvk
          rw [hg2] at hvk
          simp only [Option.map_some', Option.some.injEq] at hcont hvk
          rw [hvk]
          rw [← List.concat_eq_append]
          exact List.Nodup.concat (by simpa using hcont) (ih k2 pr3 ho)
      · rw [hunch] at hg2
        exact ih k2 pr2 hg2

/-- C9, amended: in every reachable state each caller identity appears at
most once in a stored proposal's voted list; edit_proposal and end_proposal
leave every record's voted list unchanged; vote either leaves the store
unchanged or appends exactly the caller, not already present, to the voted
list at its key and leaves every other key unchanged; a second vote by the
same caller fails AlreadyVoted and leaves the store unchanged. However,
Create_proposal overwrites the record at its key with an empty voted list,
so the voted set at a key is not monotone across create overwrites. -/
theorem C9_amended_voted_discipline (s : Store) (h : Reachable s) (c : Principal)
    (k k2 : Nat) (r : CreateProposal) (ch : Choice) (pr : Proposal) :
    (storeGet s k = some pr → pr.voted.Nodup) ∧
    (storeGet (edit_proposal c k r s).store k2).map Proposal.voted =
      (storeGet s k2).map Proposal.voted ∧
    (storeGet (end_proposal c k s).store k2).map Proposal.voted =
      (storeGet s k2).map Proposal.voted ∧
    (storeGet (Create_proposal c k r s).store k).map Proposal.voted = some [] ∧
    ((vote c k ch s).store = s ∨
      ((storeGet s k).map (fun p => p.voted.contains c) = some false ∧
        (storeGet (vote c k ch s).store k).map Proposal.voted =
          (storeGet s k).map (fun p => p.voted ++ [c]) ∧
        (k2 = k ∨ storeGet (vote c k ch s).store k2 = storeGet s k2))) ∧
    (storeGet s k = some pr → pr.voted.contains c = true →
      (vote c k ch s).result = VoteResult.err VoteError.AlreadyVoted ∧
        (vote c k ch s).store = s) :=
  ⟨fun hg => reachable_voted_nodup h k pr hg,
    edit_voted_eq c k r s k2,
    end_voted_eq c k s k2,
    by simp [Create_proposal, storeGet_insert],
    vote_store_shape c k k2 ch s,
    fun hg hv => vote_already_voted c k ch s pr hg hv⟩

theorem C9_amended_witness :
    Reachable ([] : Store) ∧
    ((storeGet ([] : Store) 1 = some ⟨"d", 0, 0, 0, true, [], 7⟩ →
        (Proposal.voted ⟨"d", 0, 0, 0, true, [], 7⟩).Nodup) ∧
      (storeGet (edit_proposal 5 1 ⟨"d", true⟩ []).store 2).map Proposal.voted =
        (storeGet ([] : Store) 2).map Proposal.voted ∧
      (storeGet (end_proposal 5 1 []).store 2).map Proposal.voted =
        (storeGet ([] : Store) 2).map Proposal.voted ∧
      (storeGet (Create_proposal 5 1 ⟨"d", true⟩ []).store 1).map Proposal.voted =
        some [] ∧
      ((vote 5 1 Choice.Pass []).store = ([] : Store) ∨
        ((storeGet ([] : Store) 1).map (fun p => p.voted.contains 5) = some false ∧
          (storeGet (vote 5 1 Choice.Pass []).store 1).map Proposal.voted =
            (storeGet ([] : Store) 1).map (fun p => p.voted ++ [5]) ∧
          (2 = 1 ∨ storeGet (vote 5 1 Choice.Pass []).store 2 =
            storeGet ([] : Store) 2))) ∧
      (storeGet ([] : Store) 1 = some ⟨"d", 0, 0, 0, true, [], 7⟩ →
        (Proposal.voted ⟨"d", 0, 0, 0, true, [], 7⟩).contains 5 = true →
        (vote 5 1 Choice.Pass []).result = VoteResult.err VoteError.AlreadyVoted ∧
          (vote 5 1 Choice.Pass []).store = ([] : Store))) :=
  ⟨Reachable.init,
    C9_amended_voted_discipline [] Reachable.init 5 1 2 ⟨"d", true⟩ Choice.Pass
      ⟨"d", 0, 0, 0, true, [], 7⟩⟩

end ICPVote
